import Mathlib

/-!
Verification of the chistaticmiddleware Go package (static.go): a Chi
middleware that serves static files for request paths matching a configured
URL path prefix and delegates every other request to the next handler in the
chain.  The embedding below translates the package's data model and request
handling into pure Lean functions; host-library collaborators (io/fs.Sub,
net/http's Error, StripPrefix, FileServer) are modelled at the granularity
the middleware observes.
-/

namespace ChiStatic

/-- Go strings.HasPrefix: a simple case-sensitive prefix test.  Strings are
compared through their character lists, which for valid UTF-8 agrees with
Go's byte-level comparison. -/
def hasPrefix (s pre : String) : Bool :=
  pre.data.isPrefixOf s.data

/-- Go strings.TrimPrefix: removes the leading occurrence of `pre` from `s`,
returning `s` unchanged when `pre` is not a prefix. -/
def trimPrefix (s pre : String) : String :=
  if hasPrefix s pre then String.mk (s.data.drop pre.data.length) else s

/-- Go strings.HasSuffix, used only to infer a Content-Type from the file
extension in the model of the host file server. -/
def hasSuffix (s suf : String) : Bool :=
  suf.data.isSuffixOf s.data

/-- A logging capability (the package's Logger interface, a single Printf
method).  `defaultConsole` models the `log.New(os.Stdout, "DEBUG: ",
log.LstdFlags)` logger installed at construction time; `custom` models any
user-supplied implementation.  Logging writes to an external sink and has no
effect on the HTTP response, so a logger is identified by which value it is. -/
inductive Logger where
  | defaultConsole : Logger
  | custom : Nat → Logger
deriving DecidableEq, Repr

/-- A read-only hierarchical file store (Go fs.FS) at the granularity the
middleware observes: a finite map from slash-separated relative file paths to
file contents. -/
abbrev FS := List (String × String)

/-- Go io/fs.ValidPath: splits the name on slashes; every element must be
nonempty and must not be "." or ".."; the whole name "." denotes the root and
is valid.  (UTF-8 validity is automatic for Lean strings.) -/
def splitSlash : List Char → List (List Char)
  | [] => [[]]
  | c :: cs =>
    if c = '/' then [] :: splitSlash cs
    else
      match splitSlash cs with
      | [] => [[c]]
      | e :: es => (c :: e) :: es

def validPath (name : String) : Bool :=
  name = "." ||
    (splitSlash name.data).all fun e =>
      !(decide (e = [])) && !(decide (e = ['.'])) && !(decide (e = ['.', '.']))

/-- The subtree of `fsys` under directory `dir`: the files whose path starts
with `dir ++ "/"`, re-addressed relative to `dir` (the rooted view produced
by Go's fs.Sub for a filesystem with no special Sub support). -/
def subDir (fsys : FS) (dir : String) : FS :=
  fsys.filterMap fun e =>
    if hasPrefix e.1 (dir ++ "/") then
      some (String.mk (e.1.data.drop (dir.data.length + 1)), e.2)
    else none

/-- Go io/fs.Sub: rejects an invalid dir with a PathError whose textual form
is "sub <dir>: invalid name"; "." yields the filesystem itself; otherwise the
rooted view. -/
def fsSub (fsys : FS) (dir : String) : Except String FS :=
  if validPath dir then
    if dir = "." then Except.ok fsys else Except.ok (subDir fsys dir)
  else
    Except.error ("sub " ++ dir ++ ": invalid name")

/-- An HTTP request, observed through the only field the middleware reads:
its URL path. -/
structure Request where
  path : String
deriving DecidableEq, Repr

/-- An HTTP response as written by the middleware or its delegate: status
code, header map, body bytes. -/
structure Response where
  status : Nat
  headers : List (String × String)
  body : String
deriving DecidableEq, Repr

/-- Go Header().Set: replaces any existing value for the key. -/
def setHeader (hs : List (String × String)) (k v : String) :
    List (String × String) :=
  (hs.filter fun p => !(p.1 == k)) ++ [(k, v)]

/-- Lookup of a response header by exact key. -/
def getHeader (hs : List (String × String)) (k : String) : Option String :=
  (hs.find? fun p => p.1 == k).map (·.2)

/-- Go net/http.Error(w, msg, code): sets a plain-text Content-Type and
nosniff header, writes the status code, and writes the message followed by a
newline (fmt.Fprintln). -/
def httpError (hs : List (String × String)) (msg : String) (code : Nat) :
    Response :=
  { status := code
    headers :=
      setHeader (setHeader hs "Content-Type" "text/plain; charset=utf-8")
        "X-Content-Type-Options" "nosniff"
    body := msg ++ "\n" }

/-- File lookup in the rooted store (first entry with the given path). -/
def lookupFile (fsys : FS) (name : String) : Option String :=
  (fsys.find? fun e => e.1 == name).map (·.2)

/-- The host file server normalizes the URL path to start with a slash. -/
def ensureLeadingSlash (p : String) : String :=
  if hasPrefix p "/" then p else "/" ++ p

/-- Content-Type inferred from the file extension (mime.TypeByExtension in
the host primitive), restricted to the extensions exercised here. -/
def contentTypeFor (name : String) : String :=
  if hasSuffix name ".css" then "text/css; charset=utf-8"
  else if hasSuffix name ".html" then "text/html; charset=utf-8"
  else "text/plain; charset=utf-8"

/-- Whether a delegated path resolves to an existing file under the rooted
store: the path is slash-normalized, its leading slash dropped, and looked up. -/
def resolves (fsys : FS) (upath : String) : Bool :=
  (lookupFile fsys
    (String.mk ((ensureLeadingSlash upath).data.drop 1))).isSome

/-- Model of the host's generic static-file-serving primitive
(http.FileServer over the rooted view): the path is normalized to a leading
slash and resolved against the store; an existing file is streamed with
status 200 and an extension-derived Content-Type, anything else is answered
with the standard 404 (http.NotFound writes "404 page not found" through
http.Error).  Redirects, directory listings and range handling are the host
primitive's own refinements of the found outcome and are abstracted away. -/
def fileServer (fsys : FS) (hs : List (String × String)) (upath : String) :
    Response :=
  match lookupFile fsys (String.mk ((ensureLeadingSlash upath).data.drop 1)) with
  | some content =>
    { status := 200
      headers := setHeader hs "Content-Type"
        (contentTypeFor (ensureLeadingSlash upath))
      body := content }
  | none => httpError hs "404 page not found" 404

/-- Configuration of the middleware (the package's Config struct).
`cacheDuration` is a Go time.Duration: a signed 64-bit count of nanoseconds,
modelled as an unbounded integer.  A `none` logger models a nil interface
value. -/
structure Config where
  staticFS : FS
  staticRoot : String
  staticFilePrefix : String
  cacheDuration : Int
  debug : Bool
  logger : Option Logger
deriving DecidableEq, Repr

/-- The middleware instance: it holds only its configuration. -/
structure StaticMiddleware where
  config : Config
deriving DecidableEq, Repr

/-- NewStaticMiddleware: if Debug is set and no Logger is provided, the
default standard-library logger is installed; the configuration is stored
otherwise unchanged. -/
def NewStaticMiddleware (config : Config) : StaticMiddleware :=
  let config :=
    if config.debug && config.logger.isNone then
      { config with logger := some Logger.defaultConsole }
    else config
  { config := config }

/-- Floor of the base-2 logarithm, by structural recursion on a fuel bound
(the first argument), so that it evaluates inside the kernel. -/
def log2Fuel : Nat → Nat → Nat
  | 0, _ => 0
  | fuel + 1, n => if n ≤ 1 then 0 else log2Fuel fuel (n / 2) + 1

/-- Floor of the base-2 logarithm of a positive natural number. -/
def natLog2 (n : Nat) : Nat := log2Fuel n n

/-- Round num/den (den positive) to the nearest integer, ties to the even
quotient — the IEEE-754 default rounding applied to an exact quotient. -/
def rne (num den : Nat) : Nat :=
  let q := num / den
  let r := num % den
  if 2 * r < den then q
  else if den < 2 * r then q + 1
  else if q % 2 = 0 then q else q + 1

/-- Go int(d.Seconds()) for a nonnegative duration split as whole seconds and
nanosecond remainder, computed exactly as the program does: Seconds() returns
float64(sec) + float64(nsec)/1e9, and int truncates.  Both conversions are
exact (sec and nsec are below 2^53); the division rounds nsec/1e9 once to the
53-bit grid of its binade 2^(-t-1) ≤ nsec/1e9 < 2^(-t), giving the dyadic
value qn/2^(52+t); the addition rounds sec + qn/2^(52+t) once to the 53-bit
grid of the binade of sec (the sum stays inside it since the fraction is
below one), giving M/2^(52-b); truncation of that nonnegative value is its
floor.  Each IEEE-754 operation is thus the correctly rounded exact result,
with ties to even, which this computes with integer arithmetic. -/
def secondsIntNat (sec nsec : Nat) : Nat :=
  if nsec = 0 then sec
  else
    let t := 30 - natLog2 (nsec * 2 ^ 30 / 1000000000)
    let qn := rne (nsec * 2 ^ (52 + t)) 1000000000
    if sec = 0 then 0
    else
      let b := natLog2 sec
      let M := rne (sec * 2 ^ (52 + t) + qn) (2 ^ (t + b))
      M / 2 ^ (52 - b)

/-- Go int(d.Seconds()) for a time.Duration d (nanoseconds).  Go's integer
division and remainder take the dividend's sign and every step of the float
computation and the final truncation is odd-symmetric, so a negative duration
is handled through its absolute value; only positive durations reach this in
the program (the call is guarded by CacheDuration > 0). -/
def intSeconds (d : Int) : Int :=
  if 0 ≤ d then
    Int.ofNat (secondsIntNat (d.toNat / 1000000000) (d.toNat % 1000000000))
  else
    -Int.ofNat (secondsIntNat (d.natAbs / 1000000000) (d.natAbs % 1000000000))

/-- The response-header state serveStaticFiles establishes before delegating:
Cache-Control is set exactly when CacheDuration is positive. -/
def cacheHeaders (config : Config) : List (String × String) :=
  if 0 < config.cacheDuration then
    setHeader [] "Cache-Control"
      ("public, max-age=" ++ toString (intSeconds config.cacheDuration))
  else []

/-- The outcome of the file-serving operation: the response written, together
with the delegations made to the host file-serving primitive (each recorded
as the rooted store and the path handed over), so that "invoked exactly once
with this path" is part of the observable behavior. -/
structure ServeOut where
  resp : Response
  delegations : List (FS × String)
deriving DecidableEq, Repr

/-- Go net/http.StripPrefix(pre, fileServer) applied to a request: with an
empty pre the inner server is invoked on the path unchanged; otherwise pre is
trimmed from the path and the inner server is invoked on the remainder, and a
path that does not shrink (pre not an actual prefix) is answered 404 without
invoking the inner server.  (The request's RawPath is empty in this model, as
for paths that need no escaping.) -/
def stripPrefixServe (pre : String) (fsys : FS)
    (hs : List (String × String)) (r : Request) : ServeOut :=
  if pre = "" then
    { resp := fileServer fsys hs r.path, delegations := [(fsys, r.path)] }
  else
    let p := trimPrefix r.path pre
    if p.length < r.path.length then
      { resp := fileServer fsys hs p, delegations := [(fsys, p)] }
    else
      { resp := httpError hs "404 page not found" 404, delegations := [] }

/-- serveStaticFiles: roots the configured filesystem at the configured root;
on failure responds 500 with the error text through http.Error and returns;
on success sets the Cache-Control header when CacheDuration is positive, then
strips the prefix and delegates to the host file server. -/
def serveStaticFiles (m : StaticMiddleware) (r : Request) : ServeOut :=
  match fsSub m.config.staticFS m.config.staticRoot with
  | Except.error err => { resp := httpError [] err 500, delegations := [] }
  | Except.ok staticFS =>
    stripPrefixServe m.config.staticFilePrefix staticFS
      (cacheHeaders m.config) r

/-- The observable outcome of one pass through the wrapped handler: either
the next handler is invoked exactly once with the given request and the
middleware writes nothing, or the middleware itself serves and produces the
given outcome without ever invoking the next handler. -/
inductive HandlerResult where
  | next : Request → HandlerResult
  | served : ServeOut → HandlerResult
deriving DecidableEq, Repr

/-- Handler: the two-branch dispatch.  A path carrying the configured prefix
is served by serveStaticFiles; any other path is passed to the next handler
with the request unmodified.  (The debug log lines on both branches write to
the logger sink only and do not touch the response.) -/
def handle (m : StaticMiddleware) (r : Request) : HandlerResult :=
  if hasPrefix r.path m.config.staticFilePrefix then
    HandlerResult.served (serveStaticFiles m r)
  else
    HandlerResult.next r

/-- The dispatch together with the receiver's state after the call: the
method bodies of Handler and serveStaticFiles contain no assignment to
`m.config`, so the state passed out is the state passed in. -/
def handleFull (m : StaticMiddleware) (r : Request) :
    HandlerResult × StaticMiddleware :=
  (handle m r, m)

/-- Modelled from the spec: the variant middleware that computes the rooted
sub-filesystem once at construction time ("an implementer may cache the
rooted view at construction time as a faithful optimization"); the stored
rooted view replaces the per-request recomputation. -/
structure StaticMiddlewareCached where
  config : Config
  rooted : Except String FS
deriving Repr

/-- Modelled from the spec: construction of the caching variant — the same
logger normalization, plus the rooted view computed once. -/
def NewStaticMiddlewareCached (config : Config) : StaticMiddlewareCached :=
  let config :=
    if config.debug && config.logger.isNone then
      { config with logger := some Logger.defaultConsole }
    else config
  { config := config
    rooted := fsSub config.staticFS config.staticRoot }

/-- Modelled from the spec: the caching variant's file-serving operation,
identical to serveStaticFiles except that it reads the stored rooted view. -/
def serveStaticFilesCached (m : StaticMiddlewareCached) (r : Request) :
    ServeOut :=
  match m.rooted with
  | Except.error err => { resp := httpError [] err 500, delegations := [] }
  | Except.ok staticFS =>
    stripPrefixServe m.config.staticFilePrefix staticFS
      (cacheHeaders m.config) r

/-- Modelled from the spec: the caching variant's dispatch. -/
def handleCached (m : StaticMiddlewareCached) (r : Request) : HandlerResult :=
  if hasPrefix r.path m.config.staticFilePrefix then
    HandlerResult.served (serveStaticFilesCached m r)
  else
    HandlerResult.next r

/-- The file store of the repository's test scenario: one stylesheet under
the static/ subtree. -/
def exampleFS : FS := [("static/testfile.css", "body")]

/-- The test scenario's configuration: prefix "/static", root "static". -/
def cfgGood : Config :=
  { staticFS := exampleFS
    staticRoot := "static"
    staticFilePrefix := "/static"
    cacheDuration := 0
    debug := false
    logger := none }

/-- The test scenario with a 24-hour cache duration (in nanoseconds). -/
def cfgCache : Config := { cfgGood with cacheDuration := 86400000000000 }

/-- The malformed-root scenario of the repository's error test. -/
def cfgBadRoot : Config := { cfgGood with staticRoot := "./static" }

/-- A configuration with an empty path prefix. -/
def cfgEmptyPre : Config := { cfgGood with staticFilePrefix := "" }

/-- The test scenario with debugging enabled and no logger supplied. -/
def cfgDebug : Config := { cfgGood with debug := true }

/-- The test scenario with a cache duration of 2^24 seconds plus 999999999
nanoseconds — about 194 days, within the ordinary configuration range (the
repository's README demonstrates long cache durations) — whose fractional
part rounds up in the float64 seconds computation. -/
def cfgBigCache : Config := { cfgGood with cacheDuration := 16777216999999999 }

def reqCss : Request := { path := "/static/testfile.css" }

def reqTxt : Request := { path := "/static/testfile.txt" }

def reqOther : Request := { path := "/other/path" }

/-! Helper lemmas about the embedded host primitives. -/

theorem hasPrefix_empty (s : String) : hasPrefix s "" = true :=
  List.isPrefixOf_iff_prefix.mpr List.nil_prefix

theorem data_of_empty : ("" : String).data = [] := rfl

theorem trimPrefix_empty (s : String) : trimPrefix s "" = s := by
  unfold trimPrefix
  rw [hasPrefix_empty, if_pos rfl, data_of_empty]
  rfl

theorem find?_filterOut (k k' : String) (h : k' ≠ k) :
    ∀ hs : List (String × String),
      ((hs.filter fun p => !(p.1 == k)).find? fun p => p.1 == k') =
        hs.find? fun p => p.1 == k'
  | [] => rfl
  | a :: tl => by
    by_cases hk : a.1 = k
    · have h1 : (a.1 == k) = true := beq_iff_eq.mpr hk
      have h2 : (a.1 == k') = false :=
        beq_eq_false_iff_ne.mpr fun hx => h (hx.symm.trans hk)
      simp [List.filter_cons, h1, List.find?_cons_of_neg, h2,
        find?_filterOut k k' h tl]
    · have h1 : (a.1 == k) = false := beq_eq_false_iff_ne.mpr hk
      by_cases hk2 : a.1 = k'
      · have h2 : (a.1 == k') = true := beq_iff_eq.mpr hk2
        simp [List.filter_cons, h1, List.find?_cons, h2]
      · have h2 : (a.1 == k') = false := beq_eq_false_iff_ne.mpr hk2
        simp [List.filter_cons, h1, List.find?_cons, h2,
          find?_filterOut k k' h tl]

theorem getHeader_setHeader_ne (hs : List (String × String)) (k v k' : String)
    (h : k' ≠ k) : getHeader (setHeader hs k v) k' = getHeader hs k' := by
  unfold getHeader setHeader
  rw [List.find?_append, find?_filterOut k k' h hs]
  have h2 : (k == k') = false := beq_eq_false_iff_ne.mpr fun hx => h hx.symm
  cases hf : hs.find? fun p => p.1 == k' with
  | some a => rfl
  | none => simp [List.find?_cons, h2]

theorem getHeader_setHeader_self (hs : List (String × String)) (k v : String) :
    getHeader (setHeader hs k v) k = some v := by
  unfold getHeader setHeader
  rw [List.find?_append]
  have hnone :
      ((hs.filter fun p => !(p.1 == k)).find? fun p => p.1 == k) = none := by
    induction hs with
    | nil => rfl
    | cons a tl ih =>
      by_cases hk : a.1 = k
      · have h1 : (a.1 == k) = true := beq_iff_eq.mpr hk
        simp [List.filter_cons, h1, ih]
      · have h1 : (a.1 == k) = false := beq_eq_false_iff_ne.mpr hk
        simp [List.filter_cons, h1, List.find?_cons, ih]
  rw [hnone]
  simp [List.find?_cons, beq_self_eq_true]

theorem getHeader_httpError_CC (hs : List (String × String)) (msg : String)
    (code : Nat) :
    getHeader (httpError hs msg code).headers "Cache-Control" =
      getHeader hs "Cache-Control" := by
  unfold httpError
  rw [getHeader_setHeader_ne _ _ _ _ (by decide),
    getHeader_setHeader_ne _ _ _ _ (by decide)]

theorem getHeader_fileServer_CC (fsys : FS) (hs : List (String × String))
    (u : String) :
    getHeader (fileServer fsys hs u).headers "Cache-Control" =
      getHeader hs "Cache-Control" := by
  unfold fileServer
  cases lookupFile fsys (String.mk ((ensureLeadingSlash u).data.drop 1)) with
  | some c =>
    exact getHeader_setHeader_ne hs "Content-Type" _ "Cache-Control" (by decide)
  | none => exact getHeader_httpError_CC hs "404 page not found" 404

theorem getHeader_stripServe_CC (pre : String) (fsys : FS)
    (hs : List (String × String)) (r : Request) :
    getHeader (stripPrefixServe pre fsys hs r).resp.headers "Cache-Control" =
      getHeader hs "Cache-Control" := by
  unfold stripPrefixServe
  by_cases hpre : pre = "" <;>
    by_cases hlt : (trimPrefix r.path pre).length < r.path.length <;>
      simp [hpre, hlt, getHeader_fileServer_CC, getHeader_httpError_CC]

theorem getHeader_serve_CC_ok (m : StaticMiddleware) (r : Request) (fs' : FS)
    (hsub : fsSub m.config.staticFS m.config.staticRoot = Except.ok fs') :
    getHeader (serveStaticFiles m r).resp.headers "Cache-Control" =
      getHeader (cacheHeaders m.config) "Cache-Control" := by
  unfold serveStaticFiles
  rw [hsub]
  exact getHeader_stripServe_CC _ _ _ _

theorem getHeader_serve_CC_err (m : StaticMiddleware) (r : Request)
    (err : String)
    (hsub : fsSub m.config.staticFS m.config.staticRoot = Except.error err) :
    getHeader (serveStaticFiles m r).resp.headers "Cache-Control" = none := by
  unfold serveStaticFiles
  rw [hsub]
  exact getHeader_httpError_CC [] err 500

theorem getHeader_cacheHeaders_pos (c : Config) (h : 0 < c.cacheDuration) :
    getHeader (cacheHeaders c) "Cache-Control" =
      some ("public, max-age=" ++
        toString (intSeconds c.cacheDuration)) := by
  unfold cacheHeaders
  rw [if_pos h]
  exact getHeader_setHeader_self [] "Cache-Control" _

theorem cacheHeaders_zero (c : Config) (h : c.cacheDuration = 0) :
    cacheHeaders c = [] := by
  simp [cacheHeaders, h]

theorem serveStaticFiles_delegates (m : StaticMiddleware) (r : Request)
    (fs' : FS) (hm : hasPrefix r.path m.config.staticFilePrefix = true)
    (hsub : fsSub m.config.staticFS m.config.staticRoot = Except.ok fs') :
    serveStaticFiles m r =
      { resp := fileServer fs' (cacheHeaders m.config)
          (trimPrefix r.path m.config.staticFilePrefix)
        delegations := [(fs', trimPrefix r.path m.config.staticFilePrefix)] } := by
  unfold serveStaticFiles
  rw [hsub]
  by_cases hpre : m.config.staticFilePrefix = ""
  · rw [hpre]
    simp [stripPrefixServe, trimPrefix_empty]
  · have hlt : (trimPrefix r.path m.config.staticFilePrefix).length <
        r.path.length := by
      have hpfx : m.config.staticFilePrefix.data <+: r.path.data :=
        List.isPrefixOf_iff_prefix.mp hm
      have hpos : 0 < m.config.staticFilePrefix.data.length := by
        cases hd : m.config.staticFilePrefix.data with
        | nil => exact absurd (String.ext hd) hpre
        | cons a l => simp
      have hle := hpfx.length_le
      unfold trimPrefix
      rw [hm, if_pos rfl]
      simp only [String.length, List.length_drop]
      exact Nat.sub_lt (Nat.lt_of_lt_of_le hpos hle) hpos
    simp [stripPrefixServe, hpre, hlt]

theorem fileServer_notFound (fsys : FS) (hs : List (String × String))
    (upath : String) (h : resolves fsys upath = false) :
    fileServer fsys hs upath = httpError hs "404 page not found" 404 := by
  unfold fileServer
  unfold resolves at h
  cases hl : lookupFile fsys
      (String.mk ((ensureLeadingSlash upath).data.drop 1)) with
  | none => rfl
  | some c => rw [hl] at h; simp at h

theorem fileServer_found (fsys : FS) (hs : List (String × String))
    (upath : String) (h : resolves fsys upath = true) :
    ∃ content,
      fileServer fsys hs upath =
        { status := 200
          headers := setHeader hs "Content-Type"
            (contentTypeFor (ensureLeadingSlash upath))
          body := content } := by
  unfold resolves at h
  cases hl : lookupFile fsys
      (String.mk ((ensureLeadingSlash upath).data.drop 1)) with
  | none => rw [hl] at h; simp at h
  | some c => exact ⟨c, by unfold fileServer; rw [hl]⟩

/-! The claims. -/

/-- C1: for every incoming request the wrapped handler performs a simple
case-sensitive byte-prefix test of the request path against the configured
path prefix; if the path begins with the prefix, the file-serving operation
is invoked and the next handler is never called; otherwise the next handler
is invoked exactly once with the original request unmodified and the
middleware writes no headers or status (the `next` outcome carries the
untouched request and no response). -/
theorem C1_dispatch (m : StaticMiddleware) (r : Request) :
    (hasPrefix r.path m.config.staticFilePrefix = true →
      handle m r = HandlerResult.served (serveStaticFiles m r)) ∧
    (hasPrefix r.path m.config.staticFilePrefix = false →
      handle m r = HandlerResult.next r) := by
  constructor
  · intro h
    simp [handle, h]
  · intro h
    simp [handle, h]

/-- Witness for C1 on the repository's test scenario: the stylesheet path is
served, the unrelated path is passed through unmodified. -/
theorem C1_dispatch_witness :
    handle (NewStaticMiddleware cfgGood) reqCss =
      HandlerResult.served (serveStaticFiles (NewStaticMiddleware cfgGood) reqCss) ∧
    handle (NewStaticMiddleware cfgGood) reqOther = HandlerResult.next reqOther :=
  ⟨(C1_dispatch (NewStaticMiddleware cfgGood) reqCss).1 (by decide),
   (C1_dispatch (NewStaticMiddleware cfgGood) reqOther).2 (by decide)⟩

/-- C2: for every request whose path starts with the prefix but does not
resolve to an existing file under the (successfully rooted) root, the
response status is 404; and the next handler is never invoked for a
prefix-matched path, whatever the outcome of the file-serving operation. -/
theorem C2_matched_notFound (m : StaticMiddleware) (r : Request) (fs' : FS)
    (hm : hasPrefix r.path m.config.staticFilePrefix = true)
    (hsub : fsSub m.config.staticFS m.config.staticRoot = Except.ok fs')
    (hnf : resolves fs' (trimPrefix r.path m.config.staticFilePrefix) = false) :
    (∃ out, handle m r = HandlerResult.served out ∧ out.resp.status = 404) ∧
    ∀ r', handle m r ≠ HandlerResult.next r' := by
  have hserve := serveStaticFiles_delegates m r fs' hm hsub
  have h404 := fileServer_notFound fs' (cacheHeaders m.config) _ hnf
  constructor
  · refine ⟨serveStaticFiles m r, by simp [handle, hm], ?_⟩
    rw [hserve]
    simp [h404, httpError]
  · intro r'
    simp [handle, hm]

/-- Witness for C2: the absent testfile.txt under the matched prefix yields
404 and the next handler is not an outcome. -/
theorem C2_matched_notFound_witness :
    (∃ out, handle (NewStaticMiddleware cfgGood) reqTxt =
        HandlerResult.served out ∧ out.resp.status = 404) ∧
    ∀ r', handle (NewStaticMiddleware cfgGood) reqTxt ≠ HandlerResult.next r' :=
  C2_matched_notFound (NewStaticMiddleware cfgGood) reqTxt
    [("testfile.css", "body")] (by decide) rfl (by decide)

/-- C3 counterexample: with cacheDuration 16777216999999999 ns (2^24 seconds
plus 999999999 ns) the program's float64 seconds computation rounds up, so
the successful stylesheet response carries max-age=16777217 — not the
truncated whole seconds 16777216 — refuting "S equals D expressed in whole
seconds (truncated integer seconds)" at a reachable input. -/
theorem C3_counterexample :
    handle (NewStaticMiddleware cfgBigCache) reqCss = HandlerResult.served
      { resp :=
          { status := 200
            headers := [("Cache-Control", "public, max-age=16777217"),
              ("Content-Type", "text/css; charset=utf-8")]
            body := "body" }
        delegations := [([("testfile.css", "body")], "/testfile.css")] } ∧
    ("public, max-age=16777217" : String) ≠
      "public, max-age=" ++
        toString (Int.tdiv cfgBigCache.cacheDuration 1000000000) :=
  ⟨by decide, by decide⟩

/-- C3 (amended): when cacheDuration is a positive duration D, every
successful file response carries Cache-Control public, max-age=S with S the
value of int(D.Seconds()) — D in seconds as computed through float64 and
truncated to an integer, which equals D's truncated whole seconds except for
large durations whose nanosecond remainder rounds up to the next whole
second, where S is one more; when cacheDuration is zero, no response of the
middleware carries a Cache-Control header. -/
theorem C3_cacheControl (m : StaticMiddleware) (r : Request) :
    (∀ fs' : FS,
      0 < m.config.cacheDuration →
      hasPrefix r.path m.config.staticFilePrefix = true →
      fsSub m.config.staticFS m.config.staticRoot = Except.ok fs' →
      resolves fs' (trimPrefix r.path m.config.staticFilePrefix) = true →
      ∃ out, handle m r = HandlerResult.served out ∧ out.resp.status = 200 ∧
        getHeader out.resp.headers "Cache-Control" =
          some ("public, max-age=" ++
            toString (intSeconds m.config.cacheDuration))) ∧
    (m.config.cacheDuration = 0 →
      ∀ out, handle m r = HandlerResult.served out →
        getHeader out.resp.headers "Cache-Control" = none) := by
  constructor
  · intro fs' hpos hm hsub hres
    refine ⟨serveStaticFiles m r, by simp [handle, hm], ?_, ?_⟩
    · rw [serveStaticFiles_delegates m r fs' hm hsub]
      obtain ⟨content, hc⟩ := fileServer_found fs' (cacheHeaders m.config) _ hres
      simp [hc]
    · rw [getHeader_serve_CC_ok m r fs' hsub,
        getHeader_cacheHeaders_pos m.config hpos]
  · intro h0 out hout
    by_cases hm : hasPrefix r.path m.config.staticFilePrefix = true
    · have hout' : serveStaticFiles m r = out := by
        simpa [handle, hm] using hout
      rw [← hout']
      cases hfs : fsSub m.config.staticFS m.config.staticRoot with
      | error e => exact getHeader_serve_CC_err m r e hfs
      | ok fs' =>
        rw [getHeader_serve_CC_ok m r fs' hfs, cacheHeaders_zero m.config h0]
        rfl
    · rw [Bool.not_eq_true] at hm
      simp [handle, hm] at hout

/-- Witness for C3: a 24-hour cache duration puts the computed Cache-Control
value on the successful stylesheet response. -/
theorem C3_cacheControl_witness :
    ∃ out, handle (NewStaticMiddleware cfgCache) reqCss =
        HandlerResult.served out ∧ out.resp.status = 200 ∧
      getHeader out.resp.headers "Cache-Control" =
        some ("public, max-age=" ++
          toString (intSeconds
            (NewStaticMiddleware cfgCache).config.cacheDuration)) :=
  (C3_cacheControl (NewStaticMiddleware cfgCache) reqCss).1
    [("testfile.css", "body")] (by decide) (by decide) rfl (by decide)

/-- C4 counterexample: with root "./static" (rooting fails), the 500 response
body is the error's textual message followed by a newline — http.Error
appends the newline — so it is not equal to the bare error message. -/
theorem C4_counterexample :
    handle (NewStaticMiddleware cfgBadRoot) reqCss = HandlerResult.served
      { resp :=
          { status := 500
            headers := [("Content-Type", "text/plain; charset=utf-8"),
              ("X-Content-Type-Options", "nosniff")]
            body := "sub ./static: invalid name\n" }
        delegations := [] } ∧
    "sub ./static: invalid name\n" ≠ "sub ./static: invalid name" :=
  ⟨rfl, by decide⟩

/-- C4 (amended): for every prefix-matched request, if rooting the configured
file system at the root fails, the response has status 500 and a plain-text
body equal to the error's textual message followed by a newline; the error is
handled at the point of occurrence — the file-serving primitive is never
invoked (no delegation) and the next handler is never invoked — and the
single rooting attempt is not retried. -/
theorem C4_rootingError (m : StaticMiddleware) (r : Request) (err : String)
    (hm : hasPrefix r.path m.config.staticFilePrefix = true)
    (hsub : fsSub m.config.staticFS m.config.staticRoot = Except.error err) :
    (∃ out, handle m r = HandlerResult.served out ∧
      out.resp.status = 500 ∧ out.resp.body = err ++ "\n" ∧
      out.delegations = []) ∧
    ∀ r', handle m r ≠ HandlerResult.next r' := by
  constructor
  · refine ⟨serveStaticFiles m r, by simp [handle, hm], ?_⟩
    unfold serveStaticFiles
    rw [hsub]
    exact ⟨rfl, rfl, rfl⟩
  · intro r'
    simp [handle, hm]

/-- Witness for the amended C4 on the repository's error-test scenario. -/
theorem C4_rootingError_witness :
    (∃ out, handle (NewStaticMiddleware cfgBadRoot) reqCss =
        HandlerResult.served out ∧
      out.resp.status = 500 ∧
      out.resp.body = "sub ./static: invalid name" ++ "\n" ∧
      out.delegations = []) ∧
    ∀ r', handle (NewStaticMiddleware cfgBadRoot) reqCss ≠
      HandlerResult.next r' :=
  C4_rootingError (NewStaticMiddleware cfgBadRoot) reqCss
    "sub ./static: invalid name" (by decide) rfl

/-- C5: for every prefix-matched request that is served (rooting succeeded),
the host's static-file-serving primitive is invoked exactly once, rooted at
the sub-filesystem computed from the configured file system and root, and the
path handed to it is the request path with the leading path prefix removed. -/
theorem C5_strip_delegate (m : StaticMiddleware) (r : Request) (fs' : FS)
    (hm : hasPrefix r.path m.config.staticFilePrefix = true)
    (hsub : fsSub m.config.staticFS m.config.staticRoot = Except.ok fs') :
    ∃ out, handle m r = HandlerResult.served out ∧
      out.delegations =
        [(fs', String.mk
          (r.path.data.drop m.config.staticFilePrefix.data.length))] := by
  have hserve := serveStaticFiles_delegates m r fs' hm hsub
  refine ⟨serveStaticFiles m r, by simp [handle, hm], ?_⟩
  rw [hserve]
  simp [trimPrefix, hm]

/-- Witness for C5: serving the stylesheet delegates exactly once, with the
prefix-stripped path, to the primitive rooted at the computed subtree. -/
theorem C5_strip_delegate_witness :
    ∃ out, handle (NewStaticMiddleware cfgGood) reqCss =
        HandlerResult.served out ∧
      out.delegations = [([("testfile.css", "body")], String.mk
        (reqCss.path.data.drop
          (NewStaticMiddleware cfgGood).config.staticFilePrefix.data.length))] :=
  C5_strip_delegate (NewStaticMiddleware cfgGood) reqCss
    [("testfile.css", "body")] (by decide) rfl

/-- C6: construction with debugEnabled true and no logger yields a middleware
whose logger is the default console logger while every other field is stored
as passed; in every other case the stored configuration equals the one passed
in. -/
theorem C6_construction (c : Config) :
    ((c.debug = true ∧ c.logger = none) →
      (NewStaticMiddleware c).config.logger = some Logger.defaultConsole ∧
      (NewStaticMiddleware c).config.staticFS = c.staticFS ∧
      (NewStaticMiddleware c).config.staticRoot = c.staticRoot ∧
      (NewStaticMiddleware c).config.staticFilePrefix = c.staticFilePrefix ∧
      (NewStaticMiddleware c).config.cacheDuration = c.cacheDuration ∧
      (NewStaticMiddleware c).config.debug = c.debug) ∧
    (¬(c.debug = true ∧ c.logger = none) →
      (NewStaticMiddleware c).config = c) := by
  constructor
  · rintro ⟨hd, hl⟩
    simp [NewStaticMiddleware, hd, hl]
  · intro h
    unfold NewStaticMiddleware
    by_cases hd : c.debug = true
    · cases hl : c.logger with
      | none => exact absurd ⟨hd, hl⟩ h
      | some l => simp [hd, hl]
    · rw [Bool.not_eq_true] at hd
      simp [hd]

/-- Witness for C6: debug with no logger installs the default logger; the
plain configuration is stored exactly as passed. -/
theorem C6_construction_witness :
    (NewStaticMiddleware cfgDebug).config.logger = some Logger.defaultConsole ∧
    (NewStaticMiddleware cfgGood).config = cfgGood :=
  ⟨((C6_construction cfgDebug).1 ⟨rfl, rfl⟩).1,
   (C6_construction cfgGood).2 (fun h => absurd h.1 (by decide))⟩

/-- C7: handling a request leaves the middleware's stored configuration
unchanged (the state passed out of the handler is the state passed in), and
the dispatch outcome is a deterministic function of the configuration and the
request alone: middlewares with equal configurations handle every request
identically. -/
theorem C7_immutable (m m' : StaticMiddleware) (r : Request) :
    (handleFull m r).2 = m ∧
    (m.config = m'.config → handle m r = handle m' r) := by
  refine ⟨rfl, fun h => ?_⟩
  have hc : handle { config := m.config } r = handle { config := m'.config } r :=
    congrArg (fun cfg => handle { config := cfg } r) h
  exact hc

/-- Witness for C7: on the test scenario the state is returned unchanged and
the outcome agrees with that of a middleware rebuilt from the same
configuration. -/
theorem C7_immutable_witness :
    (handleFull (NewStaticMiddleware cfgGood) reqCss).2 =
      NewStaticMiddleware cfgGood ∧
    handle (NewStaticMiddleware cfgGood) reqCss =
      handle { config := (NewStaticMiddleware cfgGood).config } reqCss :=
  ⟨(C7_immutable (NewStaticMiddleware cfgGood)
      (NewStaticMiddleware cfgGood) reqCss).1,
   (C7_immutable (NewStaticMiddleware cfgGood)
      { config := (NewStaticMiddleware cfgGood).config } reqCss).2 rfl⟩

/-- C8: the variant that computes the rooted sub-filesystem once at
construction time is observably equivalent, on every configuration and every
request, to the implemented variant that recomputes it per request: the
recomputed rooted view of the immutable configuration is the stored one. -/
theorem C8_cached_equiv (c : Config) (r : Request) :
    handleCached (NewStaticMiddlewareCached c) r =
      handle (NewStaticMiddleware c) r := rfl

/-- C9: when cacheDuration is positive and rooting succeeds, the
Cache-Control header (carrying the program's int(D.Seconds()) value) is
written before delegation and therefore appears on every prefix-matched
response — no resolution hypothesis is needed, so 404 outcomes carry it too;
on a rooting-failure 500 response the header is absent because the error
return precedes the header write. -/
theorem C9_cacheHeader_placement (m : StaticMiddleware) (r : Request)
    (hm : hasPrefix r.path m.config.staticFilePrefix = true) :
    (∀ fs', 0 < m.config.cacheDuration →
      fsSub m.config.staticFS m.config.staticRoot = Except.ok fs' →
      ∃ out, handle m r = HandlerResult.served out ∧
        getHeader out.resp.headers "Cache-Control" =
          some ("public, max-age=" ++
            toString (intSeconds m.config.cacheDuration))) ∧
    (∀ err, fsSub m.config.staticFS m.config.staticRoot = Except.error err →
      ∃ out, handle m r = HandlerResult.served out ∧ out.resp.status = 500 ∧
        getHeader out.resp.headers "Cache-Control" = none) := by
  constructor
  · intro fs' hpos hsub
    refine ⟨serveStaticFiles m r, by simp [handle, hm], ?_⟩
    rw [getHeader_serve_CC_ok m r fs' hsub,
      getHeader_cacheHeaders_pos m.config hpos]
  · intro err hsub
    refine ⟨serveStaticFiles m r, by simp [handle, hm], ?_, ?_⟩
    · unfold serveStaticFiles
      rw [hsub]
      rfl
    · exact getHeader_serve_CC_err m r err hsub

/-- Witness for C9: with a 24-hour cache duration the 404 response for the
absent testfile.txt still carries the Cache-Control header. -/
theorem C9_cacheHeader_placement_witness :
    ∃ out, handle (NewStaticMiddleware cfgCache) reqTxt =
        HandlerResult.served out ∧
      getHeader out.resp.headers "Cache-Control" =
        some ("public, max-age=" ++
          toString (intSeconds
            (NewStaticMiddleware cfgCache).config.cacheDuration)) :=
  (C9_cacheHeader_placement (NewStaticMiddleware cfgCache) reqTxt
    (by decide)).1 [("testfile.css", "body")] (by decide) rfl

/-- C10: with an empty path prefix every request path passes the prefix test,
so the middleware claims every request: it always serves and the next handler
is never invoked. -/
theorem C10_emptyClaimsAll (m : StaticMiddleware) (r : Request)
    (h : m.config.staticFilePrefix = "") :
    hasPrefix r.path m.config.staticFilePrefix = true ∧
    handle m r = HandlerResult.served (serveStaticFiles m r) ∧
    ∀ r', handle m r ≠ HandlerResult.next r' := by
  have hp : hasPrefix r.path m.config.staticFilePrefix = true := by
    rw [h]
    exact hasPrefix_empty r.path
  exact ⟨hp, by simp [handle, hp], fun r' => by simp [handle, hp]⟩

/-- Witness for C10: with the empty prefix even the unrelated path is claimed
and served, never passed on. -/
theorem C10_emptyClaimsAll_witness :
    hasPrefix reqOther.path
      (NewStaticMiddleware cfgEmptyPre).config.staticFilePrefix = true ∧
    handle (NewStaticMiddleware cfgEmptyPre) reqOther =
      HandlerResult.served
        (serveStaticFiles (NewStaticMiddleware cfgEmptyPre) reqOther) ∧
    ∀ r', handle (NewStaticMiddleware cfgEmptyPre) reqOther ≠
      HandlerResult.next r' :=
  C10_emptyClaimsAll (NewStaticMiddleware cfgEmptyPre) reqOther rfl

end ChiStatic
